import Mathlib

/-!
Verification of the `interfaces` façade layer of the bitcoin-abc node
(`src/interfaces/node.cpp`, `src/interfaces/wallet.cpp`) against its
natural-language specification.

The façade's query and subscription methods read global node state
(`pindexBestHeader`, `chainActive`, `g_connman`, `g_mempool`, ...).  We embed
that global state as an explicit `NodeState` record and each façade method as a
function that receives the state and returns its result together with the
(possibly updated) state, so that absence of side effects is a provable
property rather than an artifact of the embedding.

The boost signal machinery (`uiInterface.*.connect`, `interfaces/handler.cpp`)
is not part of the two source files; where a claim depends on it, it is
modelled from the specification (see the doc comments starting
`Modelled from the spec:`).
-/

namespace Interfaces

/-- Embeds the fields of `CBlockIndex` the façade reads: `nHeight` and the
block header timestamp `nTime` (an unsigned 32-bit value in the source,
embedded as `Nat`). -/
structure CBlockIndex where
  nHeight : Int
  nTime : Nat
deriving DecidableEq

/-- Embeds `CBlockIndex::GetBlockTime`: returns `int64_t(nTime)`. -/
def CBlockIndex.GetBlockTime (b : CBlockIndex) : Int :=
  Int.ofNat b.nTime

/-- Embeds the genesis `CBlock` as far as the façade reads it: its header
timestamp. -/
structure CBlock where
  nTime : Nat
deriving DecidableEq

/-- Embeds `CBlockHeader::GetBlockTime`: returns `int64_t(nTime)`. -/
def CBlock.GetBlockTime (b : CBlock) : Int :=
  Int.ofNat b.nTime

/-- The chain parameters selected by `Params()`; the façade reads only the
genesis block. -/
structure CChainParams where
  genesisBlock : CBlock
deriving DecidableEq

/-- The connection-count filter `CConnman::NumConnections` passed through
`getNodeCount`. -/
inductive NumConnections where
  | CONNECTIONS_NONE
  | CONNECTIONS_IN
  | CONNECTIONS_OUT
  | CONNECTIONS_ALL
deriving DecidableEq

/-- Embeds the observable surface of `CConnman` that the façade forwards to:
node counts per filter, total byte counters, and the network-active flag. -/
structure CConnman where
  GetNodeCount : NumConnections → Nat
  GetTotalBytesRecv : Int
  GetTotalBytesSent : Int
  GetNetworkActive : Bool

/-- The global node state read by the façade's query methods:
`::pindexBestHeader`, `::chainActive` (its index vector `vChain`),
`::g_connman` (a nullable pointer, hence `Option`), the mempool counters,
the selected `Params()` and the initial-block-download latch. -/
structure NodeState where
  pindexBestHeader : Option CBlockIndex
  chainActive : List CBlockIndex
  g_connman : Option CConnman
  mempoolSize : Nat
  mempoolDynamicUsage : Nat
  params : CChainParams
  initialBlockDownload : Bool

/-- Embeds `CChain::Height()`: `vChain.size() - 1` as a signed int (so `-1` for an
empty chain). -/
def CChain.Height (c : List CBlockIndex) : Int :=
  (c.length : Int) - 1

/-- Embeds `CChain::Tip()`: the last element of `vChain`, or null when empty. -/
def CChain.Tip (c : List CBlockIndex) : Option CBlockIndex :=
  c.getLast?

namespace NodeImpl

/-- Embeds `NodeImpl::getNodeCount`: `g_connman ? g_connman->GetNodeCount(flags) : 0`. -/
def getNodeCount (s : NodeState) (flags : NumConnections) : Nat × NodeState :=
  match s.g_connman with
  | some c => (c.GetNodeCount flags, s)
  | none => (0, s)

/-- Embeds `NodeImpl::getTotalBytesRecv`: `g_connman ? g_connman->GetTotalBytesRecv() : 0`. -/
def getTotalBytesRecv (s : NodeState) : Int × NodeState :=
  match s.g_connman with
  | some c => (c.GetTotalBytesRecv, s)
  | none => (0, s)

/-- Embeds `NodeImpl::getTotalBytesSent`: `g_connman ? g_connman->GetTotalBytesSent() : 0`. -/
def getTotalBytesSent (s : NodeState) : Int × NodeState :=
  match s.g_connman with
  | some c => (c.GetTotalBytesSent, s)
  | none => (0, s)

/-- Embeds `NodeImpl::getNetworkActive`: `g_connman && g_connman->GetNetworkActive()`. -/
def getNetworkActive (s : NodeState) : Bool × NodeState :=
  match s.g_connman with
  | some c => (c.GetNetworkActive, s)
  | none => (false, s)

/-- Embeds `NodeImpl::getMempoolSize`: `g_mempool.size()`. -/
def getMempoolSize (s : NodeState) : Nat × NodeState :=
  (s.mempoolSize, s)

/-- Embeds `NodeImpl::getMempoolDynamicUsage`: `g_mempool.DynamicMemoryUsage()`. -/
def getMempoolDynamicUsage (s : NodeState) : Nat × NodeState :=
  (s.mempoolDynamicUsage, s)

/-- Embeds `NodeImpl::getHeaderTip`: under `cs_main`, if `pindexBestHeader` is set,
write its height and block time into the two output parameters and return
`true`; otherwise return `false` leaving the output parameters alone.  The
C++ in-out reference parameters are embedded by passing their current values
in and returning their (possibly updated) values. -/
def getHeaderTip (s : NodeState) (height : Int) (block_time : Int) :
    (Bool × Int × Int) × NodeState :=
  match s.pindexBestHeader with
  | some b => ((true, b.nHeight, b.GetBlockTime), s)
  | none => ((false, height, block_time), s)

/-- Embeds `NodeImpl::getNumBlocks`: `chainActive.Height()` under `cs_main`. -/
def getNumBlocks (s : NodeState) : Int × NodeState :=
  (CChain.Height s.chainActive, s)

/-- Embeds `NodeImpl::getLastBlockTime`: the active tip's block time when a tip
exists, else the genesis block's time of the current network parameters. -/
def getLastBlockTime (s : NodeState) : Int × NodeState :=
  match CChain.Tip s.chainActive with
  | some tip => (tip.GetBlockTime, s)
  | none => (s.params.genesisBlock.GetBlockTime, s)

/-- Embeds `NodeImpl::getVerificationProgress`: reads the active tip under `cs_main`
and returns `GuessVerificationProgress(Params().TxData(), tip)`.
`GuessVerificationProgress` lives in `validation.cpp`, outside the two source
files, so it is taken as an abstract function `guess` of the (nullable) tip;
the façade only forwards its result. -/
def getVerificationProgress {α : Type} (guess : Option CBlockIndex → α)
    (s : NodeState) : α × NodeState :=
  (guess (CChain.Tip s.chainActive), s)

/-- Embeds `NodeImpl::isInitialBlockDownload`: forwards `IsInitialBlockDownload()`. -/
def isInitialBlockDownload (s : NodeState) : Bool × NodeState :=
  (s.initialBlockDownload, s)

end NodeImpl

/-! ### Boost signal model

Modelled from the spec: the `boost::signals2` signals behind
`::uiInterface.*` and `CWallet::ShowProgress` are not among the source files;
the spec describes them as per-event-kind broadcasters whose `connect` stores
a callback and whose emission invokes every currently-registered callback
with the event's arguments.  A signal over argument type `γ` with callback
result type `δ` is the list of its registered callbacks. -/
def Signal (γ δ : Type) : Type :=
  List (γ → δ)

/-- Modelled from the spec: a freshly constructed signal has no registered
callbacks. -/
def Signal.empty (γ δ : Type) : Signal γ δ :=
  []

/-- Modelled from the spec: `connect` stores one more callback on the
signal. -/
def Signal.connect {γ δ : Type} (cb : γ → δ) (sig : Signal γ δ) : Signal γ δ :=
  cb :: sig

/-- Modelled from the spec: emitting an event invokes every registered
callback once with the event's arguments; the list collects what each
callback was invoked with (its result). -/
def Signal.emit {γ δ : Type} (sig : Signal γ δ) (x : γ) : List δ :=
  sig.map (fun cb => cb x)

/-- Modelled from the spec: a sequence of underlying events, emitted one
after the other on the same signal. -/
def Signal.emitEach {γ δ : Type} (sig : Signal γ δ) (events : List γ) :
    List (List δ) :=
  events.map (fun x => Signal.emit sig x)

/-! ### Wallet façade (`src/interfaces/wallet.cpp`) -/

/-- Embeds `CWallet` as far as the façade touches it: an identity (the façade
stores a reference to the wallet object and never reads its fields). -/
structure CWallet where
  walletId : Nat
deriving DecidableEq

/-- Embeds `WalletImpl`: holds the single member `m_wallet`, a non-owning reference
to the underlying wallet. -/
structure WalletImpl where
  m_wallet : CWallet
deriving DecidableEq

/-- Embeds `MakeWallet`: constructs a new `WalletImpl` wrapping the given wallet. -/
def MakeWallet (wallet : CWallet) : WalletImpl :=
  { m_wallet := wallet }

/-- Embeds `WalletImpl::handleShowProgress`: connects the callback to
`m_wallet.ShowProgress`; the façade object itself is returned unchanged
alongside the updated signal.  The `ShowProgress` callback carries
(title, progress-percent, resumable). -/
def WalletImpl.handleShowProgress {δ : Type} (impl : WalletImpl)
    (fn : String × Int × Bool → δ) (sig : Signal (String × Int × Bool) δ) :
    WalletImpl × Signal (String × Int × Bool) δ :=
  (impl, Signal.connect fn sig)

/-! ### Subscription methods of `NodeImpl` -/

namespace NodeImpl

/-- Embeds `NodeImpl::handleNotifyBlockTip`: connects to `uiInterface.NotifyBlockTip`
a lambda that receives the internal pair (initial download flag, block index
pointer) and invokes the external callback with
`(initial_download, block->nHeight, block->GetBlockTime(),
GuessVerificationProgress(Params().TxData(), block))`.
`GuessVerificationProgress` is abstract here (see
`getVerificationProgress`); the source passes it the non-null `block`. -/
def handleNotifyBlockTip {α δ : Type} (guess : Option CBlockIndex → α)
    (fn : Bool → Int → Int → α → δ)
    (sig : Signal (Bool × CBlockIndex) δ) : Signal (Bool × CBlockIndex) δ :=
  Signal.connect
    (fun p => fn p.1 p.2.nHeight p.2.GetBlockTime (guess (some p.2))) sig

/-- Embeds `NodeImpl::handleNotifyHeaderTip`: identical translation connected to
`uiInterface.NotifyHeaderTip`. -/
def handleNotifyHeaderTip {α δ : Type} (guess : Option CBlockIndex → α)
    (fn : Bool → Int → Int → α → δ)
    (sig : Signal (Bool × CBlockIndex) δ) : Signal (Bool × CBlockIndex) δ :=
  Signal.connect
    (fun p => fn p.1 p.2.nHeight p.2.GetBlockTime (guess (some p.2))) sig

/-- Embeds `NodeImpl::handleLoadWallet`: in a wallet-enabled build
(`ENABLE_WALLET`), connects to `uiInterface.LoadWallet` a lambda that wraps
the event's wallet in a fresh façade (`fn(MakeWallet(*wallet))`); otherwise
the `CHECK_WALLET` macro replaces the whole body by
`throw std::logic_error("Wallet function called in non-wallet build.")`.
The build flag is the `enable_wallet` argument; the thrown error is the
`Except.error` case. -/
def handleLoadWallet {δ : Type} (enable_wallet : Bool)
    (fn : WalletImpl → δ) (sig : Signal CWallet δ) :
    Except String (Signal CWallet δ) :=
  if enable_wallet then
    Except.ok (Signal.connect (fun wallet => fn (MakeWallet wallet)) sig)
  else
    Except.error "Wallet function called in non-wallet build."

end NodeImpl

/-! ### Control methods of `NodeImpl`

The control methods forward to free functions (`StartShutdown`,
`StartMapPort`, `InterruptMapPort`, `StopMapPort`) or to `g_connman`; those
subsystems live outside the source files, so a control method is embedded as
the sequence of subsystem commands it issues, in order. -/

/-- The subsystem entry points that `NodeImpl`'s control methods invoke. -/
inductive SubsystemCmd where
  | startShutdownCmd
  | startMapPortCmd
  | interruptMapPortCmd
  | stopMapPortCmd
  | setNetworkActiveCmd (active : Bool)
deriving DecidableEq

namespace NodeImpl

/-- Embeds `NodeImpl::startShutdown`: calls `StartShutdown()` and returns. -/
def startShutdown : List SubsystemCmd :=
  [SubsystemCmd.startShutdownCmd]

/-- Embeds `NodeImpl::mapPort`: with `use_upnp` calls `StartMapPort()`; without it
calls `InterruptMapPort()` then `StopMapPort()`. -/
def mapPort (use_upnp : Bool) : List SubsystemCmd :=
  if use_upnp then [SubsystemCmd.startMapPortCmd]
  else [SubsystemCmd.interruptMapPortCmd, SubsystemCmd.stopMapPortCmd]

/-- Embeds `NodeImpl::setNetworkActive`: forwards the flag to
`g_connman->SetNetworkActive` when the connection manager exists, else does
nothing. -/
def setNetworkActive (s : NodeState) (active : Bool) : List SubsystemCmd :=
  match s.g_connman with
  | some _ => [SubsystemCmd.setNetworkActiveCmd active]
  | none => []

end NodeImpl

/-! ### Event Channel trace model

Modelled from the spec: the Event Channel (the registration bookkeeping
behind each signal, `interfaces/handler.cpp` and the signal library) is not
among the source files.  Per the spec it holds a mapping from monotonically
assigned registration identifiers to callbacks; `register` assigns a fresh
identifier; `unregister` removes one; identifiers are never reused; emission
snapshots the currently-registered callbacks under a short-held lock and then
invokes them outside the lock, each invocation first checking that its
registration is still connected, so that no new invocation begins after a
disconnect has returned.

Concurrency is embedded as arbitrary interleavings of the channel's atomic
micro-steps: registering, unregistering (the body of a disconnect), taking an
emission pass's snapshot, and performing one callback invocation of the
current pass. -/

/-- The bookkeeping state of one Event Channel: the next fresh registration
identifier, the identifiers currently registered, the not-yet-invoked part of
the current emission pass's snapshot, the current pass number, and the log of
invocations performed so far as (pass, registration identifier) pairs, most
recent first. -/
structure ChState where
  next : Nat
  active : List Nat
  pending : List Nat
  passId : Nat
  invoked : List (Nat × Nat)
deriving DecidableEq

/-- The atomic micro-steps of the channel, any interleaving of which may be
produced by concurrent callers. -/
inductive ChStep where
  | register
  | unregister (id : Nat)
  | beginEmit
  | invokeNext
deriving DecidableEq

/-- One micro-step of the channel.  `register` stores a callback under the
fresh identifier; `unregister` removes an identifier (idempotent, no error if
absent); `beginEmit` snapshots the registered callbacks and starts a new
emission pass; `invokeNext` takes the next snapshot entry and invokes it only
if it is still registered at that moment. -/
def chStep (s : ChState) : ChStep → ChState
  | ChStep.register =>
      { s with next := s.next + 1, active := s.next :: s.active }
  | ChStep.unregister id =>
      { s with active := s.active.erase id }
  | ChStep.beginEmit =>
      { s with pending := s.active, passId := s.passId + 1 }
  | ChStep.invokeNext =>
      match s.pending with
      | [] => s
      | id :: rest =>
          if id ∈ s.active then
            { s with pending := rest, invoked := (s.passId, id) :: s.invoked }
          else
            { s with pending := rest }

/-- Running a trace of micro-steps from a state. -/
def chRun (s : ChState) : List ChStep → ChState
  | [] => s
  | st :: ts => chRun (chStep s st) ts

/-- A freshly created channel. -/
def chInit : ChState :=
  { next := 0, active := [], pending := [], passId := 0, invoked := [] }

/-- Modelled from the spec: a Subscription Handle binds one registration
identifier and records whether it has been disconnected. -/
structure SubHandle where
  id : Nat
  connected : Bool
deriving DecidableEq

/-- Modelled from the spec: `disconnect` unregisters the bound identifier and
marks the handle disconnected; on an already-disconnected handle it is a
no-op. -/
def SubHandle.disconnect (h : SubHandle) (s : ChState) : SubHandle × ChState :=
  if h.connected then
    ({ h with connected := false }, chStep s (ChStep.unregister h.id))
  else
    (h, s)

/-- The channel invariant: registered and snapshot identifiers were
allocated; no duplicates among registered identifiers, within the snapshot,
or in the invocation log; logged passes are no newer than the current pass;
and an identifier already invoked in the current pass is no longer in the
snapshot. -/
structure ChInv (s : ChState) : Prop where
  active_lt : ∀ id ∈ s.active, id < s.next
  active_nodup : s.active.Nodup
  pending_nodup : s.pending.Nodup
  invoked_pass_le : ∀ e ∈ s.invoked, e.1 ≤ s.passId
  invoked_not_pending : ∀ e ∈ s.invoked, e.1 = s.passId → e.2 ∉ s.pending
  invoked_nodup : s.invoked.Nodup

theorem chInv_init : ChInv chInit := by
  constructor <;> simp [chInit]

theorem chInv_step (s : ChState) (st : ChStep) (h : ChInv s) :
    ChInv (chStep s st) := by
  cases st with
  | register =>
      refine ⟨?_, ?_, ?_, ?_, ?_, ?_⟩ <;> simp only [chStep]
      · intro id hid
        rcases List.mem_cons.mp hid with rfl | hmem
        · omega
        · exact Nat.lt_trans (h.active_lt id hmem) (Nat.lt_succ_self _)
      · exact List.nodup_cons.mpr
          ⟨fun hmem => absurd (h.active_lt s.next hmem) (Nat.lt_irrefl _),
           h.active_nodup⟩
      · exact h.pending_nodup
      · exact h.invoked_pass_le
      · exact h.invoked_not_pending
      · exact h.invoked_nodup
  | unregister id =>
      refine ⟨?_, ?_, ?_, ?_, ?_, ?_⟩ <;> simp only [chStep]
      · intro i hi
        exact h.active_lt i (List.mem_of_mem_erase hi)
      · exact h.active_nodup.erase id
      · exact h.pending_nodup
      · exact h.invoked_pass_le
      · exact h.invoked_not_pending
      · exact h.invoked_nodup
  | beginEmit =>
      refine ⟨?_, ?_, ?_, ?_, ?_, ?_⟩ <;> simp only [chStep]
      · exact h.active_lt
      · exact h.active_nodup
      · exact h.active_nodup
      · intro e he
        exact Nat.le_trans (h.invoked_pass_le e he) (Nat.le_succ _)
      · intro e he hpass
        have := h.invoked_pass_le e he
        omega
      · exact h.invoked_nodup
  | invokeNext =>
      rcases hp : s.pending with _ | ⟨id, rest⟩
      · simpa [chStep, hp] using h
      · have hnodup : id ∉ rest ∧ rest.Nodup := by
          have := h.pending_nodup
          rw [hp] at this
          exact List.nodup_cons.mp this
        by_cases hact : id ∈ s.active
        · refine ⟨?_, ?_, ?_, ?_, ?_, ?_⟩ <;> simp only [chStep, hp, if_pos hact]
          · exact h.active_lt
          · exact h.active_nodup
          · exact hnodup.2
          · intro e he
            rcases List.mem_cons.mp he with rfl | hmem
            · exact Nat.le_refl _
            · exact h.invoked_pass_le e hmem
          · intro e he hpass
            rcases List.mem_cons.mp he with rfl | hmem
            · exact hnodup.1
            · intro hmem2
              exact h.invoked_not_pending e hmem hpass (by rw [hp]; right; exact hmem2)
          · refine List.nodup_cons.mpr ⟨?_, h.invoked_nodup⟩
            intro hmem
            exact h.invoked_not_pending (s.passId, id) hmem rfl
              (by rw [hp]; left)
        · refine ⟨?_, ?_, ?_, ?_, ?_, ?_⟩ <;> simp only [chStep, hp, if_neg hact]
          · exact h.active_lt
          · exact h.active_nodup
          · exact hnodup.2
          · exact h.invoked_pass_le
          · intro e he hpass hmem
            exact h.invoked_not_pending e he hpass (by rw [hp]; right; exact hmem)
          · exact h.invoked_nodup

theorem chInv_run (s : ChState) (ts : List ChStep) (h : ChInv s) :
    ChInv (chRun s ts) := by
  induction ts generalizing s with
  | nil => exact h
  | cons st ts ih => exact ih (chStep s st) (chInv_step s st h)

theorem chRun_append (s : ChState) (t1 t2 : List ChStep) :
    chRun s (t1 ++ t2) = chRun (chRun s t1) t2 := by
  induction t1 generalizing s with
  | nil => rfl
  | cons st ts ih => exact ih (chStep s st)

/-- How many times the callback registered under `id` has been invoked so
far. -/
def invCount (id : Nat) (s : ChState) : Nat :=
  s.invoked.countP (fun e => e.2 == id)

theorem disconnected_stays (id : Nat) (s : ChState) (ts : List ChStep)
    (hlt : id < s.next) (hout : id ∉ s.active) :
    id < (chRun s ts).next ∧ id ∉ (chRun s ts).active ∧
      invCount id (chRun s ts) = invCount id s := by
  induction ts generalizing s with
  | nil => exact ⟨hlt, hout, rfl⟩
  | cons st ts ih =>
      have hstep : id < (chStep s st).next ∧ id ∉ (chStep s st).active ∧
          invCount id (chStep s st) = invCount id s := by
        cases st with
        | register =>
            refine ⟨Nat.lt_trans hlt (Nat.lt_succ_self _), ?_, rfl⟩
            simp only [chStep, List.mem_cons]
            rintro (rfl | hmem)
            · exact Nat.lt_irrefl _ hlt
            · exact hout hmem
        | unregister j =>
            exact ⟨hlt, fun hmem => hout (List.mem_of_mem_erase hmem), rfl⟩
        | beginEmit =>
            exact ⟨hlt, hout, rfl⟩
        | invokeNext =>
            rcases hp : s.pending with _ | ⟨j, rest⟩
            · simp only [chStep, hp]
              exact ⟨hlt, hout, trivial⟩
            · by_cases hact : j ∈ s.active
              · have hne : (j == id) = false := by
                  simp only [beq_eq_false_iff_ne]
                  rintro rfl
                  exact hout hact
                simp only [chStep, hp, if_pos hact]
                exact ⟨hlt, hout, by simp [invCount, List.countP_cons, hne]⟩
              · simp only [chStep, hp, if_neg hact]
                exact ⟨hlt, hout, rfl⟩
      have := ih (chStep s st) hstep.1 hstep.2.1
      exact ⟨this.1, this.2.1, this.2.2.trans hstep.2.2⟩

/-! ### Sample states used as concrete witnesses -/

/-- A node state before any header or block is known and before the
connection manager exists (startup window). -/
def emptyNodeState : NodeState :=
  { pindexBestHeader := none, chainActive := [], g_connman := none,
    mempoolSize := 0, mempoolDynamicUsage := 0,
    params := { genesisBlock := { nTime := 1231006505 } },
    initialBlockDownload := true }

/-- A node state whose best header is at height 100 with time 1234. -/
def headerNodeState : NodeState :=
  { emptyNodeState with
      pindexBestHeader := some { nHeight := 100, nTime := 1234 } }

/-- A node state whose active chain holds two blocks, the tip at height 2
with time 20. -/
def tipNodeState : NodeState :=
  { emptyNodeState with
      chainActive := [{ nHeight := 1, nTime := 10 }, { nHeight := 2, nTime := 20 }] }

/-! ### Claim theorems -/

/-- C1: `handleNotifyBlockTip` and `handleNotifyHeaderTip` translate each
internal (is-initial-download, block-index) event into the fixed external
tuple (is-initial-download, the block's height, the block's time, the
computed verification-progress estimate for that block) before invoking the
subscriber's callback; in particular a block-tip event at height 100, time T
and progress 0.999999 during non-initial sync delivers exactly
(false, 100, T, 0.999999). -/
theorem tip_notifications_translate_args :
    ∀ (α δ : Type) (guess : Option CBlockIndex → α)
      (fn : Bool → Int → Int → α → δ)
      (initial_download : Bool) (block : CBlockIndex),
      (Signal.emit
          (NodeImpl.handleNotifyBlockTip guess fn
            (Signal.empty (Bool × CBlockIndex) δ)) (initial_download, block)
        = [fn initial_download block.nHeight block.GetBlockTime
            (guess (some block))])
      ∧ (Signal.emit
          (NodeImpl.handleNotifyHeaderTip guess fn
            (Signal.empty (Bool × CBlockIndex) δ)) (initial_download, block)
        = [fn initial_download block.nHeight block.GetBlockTime
            (guess (some block))])
      ∧ ∀ (T : Nat),
          Signal.emit
            (NodeImpl.handleNotifyBlockTip
              (fun _ => (999999 : Rat) / 1000000)
              (fun a ht bt pr => (a, ht, bt, pr))
              (Signal.empty (Bool × CBlockIndex) (Bool × Int × Int × Rat)))
            (false, { nHeight := 100, nTime := T })
          = [(false, 100, Int.ofNat T, (999999 : Rat) / 1000000)] :=
  fun _ _ _ _ _ _ => ⟨rfl, rfl, fun _ => rfl⟩

/-- C3: `getHeaderTip` returns `false` and leaves both output parameters
unmodified when no best header is known, and returns `true` with the best
header's height and block time when one exists. -/
theorem getHeaderTip_absent_or_present :
    ∀ (s : NodeState) (height block_time : Int),
      (s.pindexBestHeader = none →
        NodeImpl.getHeaderTip s height block_time
          = ((false, height, block_time), s))
      ∧ ∀ b, s.pindexBestHeader = some b →
          NodeImpl.getHeaderTip s height block_time
            = ((true, b.nHeight, b.GetBlockTime), s) := by
  intro s height block_time
  constructor
  · intro hnone
    simp [NodeImpl.getHeaderTip, hnone]
  · intro b hsome
    simp [NodeImpl.getHeaderTip, hsome]

/-- Witness for C3: before any header exists, `getHeaderTip` returns `false`
with the output parameters 5 and 7 untouched; with a best header at height
100 and time 1234 it returns `true` with those values. -/
theorem getHeaderTip_absent_or_present_witness :
    NodeImpl.getHeaderTip emptyNodeState 5 7 = ((false, 5, 7), emptyNodeState)
    ∧ NodeImpl.getHeaderTip headerNodeState 5 7
        = ((true, 100, 1234), headerNodeState) :=
  ⟨(getHeaderTip_absent_or_present emptyNodeState 5 7).1 rfl,
   (getHeaderTip_absent_or_present headerNodeState 5 7).2
     { nHeight := 100, nTime := 1234 } rfl⟩

/-- C4: without wallet capability compiled in, `handleLoadWallet` fails
immediately with the capability-unavailable error and never returns a
handle (never succeeds). -/
theorem handleLoadWallet_disabled_errors :
    ∀ (δ : Type) (fn : WalletImpl → δ) (sig : Signal CWallet δ),
      NodeImpl.handleLoadWallet false fn sig
        = Except.error "Wallet function called in non-wallet build."
      ∧ (NodeImpl.handleLoadWallet false fn sig).isOk = false :=
  fun _ _ _ => ⟨rfl, rfl⟩

/-- C5: in a wallet-capable deployment, `handleLoadWallet` registers the
lambda `fn ∘ MakeWallet`, so each underlying wallet-loaded event invokes the
external callback with exactly one freshly constructed wallet façade, and
that façade wraps exactly the wallet carried by the event. -/
theorem handleLoadWallet_wraps_each_wallet :
    ∀ (δ : Type) (fn : WalletImpl → δ) (sig0 : Signal CWallet δ),
      (NodeImpl.handleLoadWallet true fn sig0
        = Except.ok
            (Signal.connect (fun wallet => fn (MakeWallet wallet)) sig0))
      ∧ (∀ (events : List CWallet),
          Signal.emitEach
            (Signal.connect (fun wallet => MakeWallet wallet)
              (Signal.empty CWallet WalletImpl)) events
            = events.map (fun wallet => [MakeWallet wallet]))
      ∧ ∀ wallet : CWallet, (MakeWallet wallet).m_wallet = wallet :=
  fun _ _ _ => ⟨rfl, fun _ => rfl, fun _ => rfl⟩

/-- C2: over every interleaving of register/unregister/emit micro-steps on
one Event Channel, once the disconnect of an allocated registration
identifier has completed, that callback is never invoked again (its
invocation count stays fixed through any further interleaving), and no
callback is ever invoked twice within one emission pass (the invocation log
of (pass, identifier) pairs has no duplicates). -/
theorem event_channel_disconnect_and_once (ts1 ts2 : List ChStep) (id : Nat)
    (hid : id < (chRun chInit ts1).next) :
    invCount id
        (chRun (chStep (chRun chInit ts1) (ChStep.unregister id)) ts2)
      = invCount id (chRun chInit ts1)
    ∧ (chRun chInit (ts1 ++ ts2)).invoked.Nodup := by
  constructor
  · have hinv : ChInv (chRun chInit ts1) := chInv_run chInit ts1 chInv_init
    have hout : id ∉ (chStep (chRun chInit ts1) (ChStep.unregister id)).active := by
      intro hmem
      exact (List.Nodup.mem_erase_iff hinv.active_nodup).mp hmem |>.1 rfl
    exact (disconnected_stays id
      (chStep (chRun chInit ts1) (ChStep.unregister id)) ts2 hid hout).2.2
  · rw [chRun_append]
    exact (chInv_run (chRun chInit ts1) ts2
      (chInv_run chInit ts1 chInv_init)).invoked_nodup

/-- Witness for C2: register one callback (identifier 0), disconnect it,
then run an emission pass; the callback's invocation count stays 0 and the
invocation log stays duplicate-free. -/
theorem event_channel_disconnect_and_once_witness :
    invCount 0
        (chRun (chStep (chRun chInit [ChStep.register]) (ChStep.unregister 0))
          [ChStep.beginEmit, ChStep.invokeNext])
      = invCount 0 (chRun chInit [ChStep.register])
    ∧ (chRun chInit
        ([ChStep.register] ++ [ChStep.beginEmit, ChStep.invokeNext])).invoked.Nodup :=
  event_channel_disconnect_and_once [ChStep.register]
    [ChStep.beginEmit, ChStep.invokeNext] 0 (by decide)

/-- C6: when the connection manager is absent, `getNodeCount`,
`getTotalBytesRecv` and `getTotalBytesSent` return the defined absent value
0 and `getNetworkActive` returns `false`; none of them fails. -/
theorem queries_absent_connman_defaults :
    ∀ (s : NodeState) (flags : NumConnections),
      s.g_connman = none →
        (NodeImpl.getNodeCount s flags).1 = 0
        ∧ (NodeImpl.getTotalBytesRecv s).1 = 0
        ∧ (NodeImpl.getTotalBytesSent s).1 = 0
        ∧ (NodeImpl.getNetworkActive s).1 = false := by
  intro s flags hnone
  refine ⟨?_, ?_, ?_, ?_⟩ <;>
    simp [NodeImpl.getNodeCount, NodeImpl.getTotalBytesRecv,
      NodeImpl.getTotalBytesSent, NodeImpl.getNetworkActive, hnone]

/-- Witness for C6: in the startup state with no connection manager, the
four connection queries return 0, 0, 0 and `false`. -/
theorem queries_absent_connman_defaults_witness :
    (NodeImpl.getNodeCount emptyNodeState NumConnections.CONNECTIONS_ALL).1 = 0
    ∧ (NodeImpl.getTotalBytesRecv emptyNodeState).1 = 0
    ∧ (NodeImpl.getTotalBytesSent emptyNodeState).1 = 0
    ∧ (NodeImpl.getNetworkActive emptyNodeState).1 = false :=
  queries_absent_connman_defaults emptyNodeState
    NumConnections.CONNECTIONS_ALL rfl

/-- C7: a Subscription Handle disconnects at most once: after one
disconnect the handle reports disconnected, and a second disconnect is a
no-op returning the handle and the channel's registration state exactly as
the first disconnect left them. -/
theorem disconnect_idempotent :
    ∀ (h : SubHandle) (s : ChState),
      SubHandle.disconnect (SubHandle.disconnect h s).1
          (SubHandle.disconnect h s).2
        = SubHandle.disconnect h s
      ∧ (SubHandle.disconnect h s).1.connected = false := by
  intro h s
  by_cases hc : h.connected <;>
    simp [SubHandle.disconnect, hc]

/-- C8: the control methods forward their commands verbatim as
fire-and-forget calls: `startShutdown` issues the shutdown request,
`mapPort true` starts port mapping, `mapPort false` interrupts and then
stops it, and `setNetworkActive` forwards the flag to the connection
manager when it exists; none of them returns completion information. -/
theorem control_methods_forward_verbatim :
    NodeImpl.startShutdown = [SubsystemCmd.startShutdownCmd]
    ∧ NodeImpl.mapPort true = [SubsystemCmd.startMapPortCmd]
    ∧ NodeImpl.mapPort false
        = [SubsystemCmd.interruptMapPortCmd, SubsystemCmd.stopMapPortCmd]
    ∧ ∀ (s : NodeState) (c : CConnman) (active : Bool),
        NodeImpl.setNetworkActive { s with g_connman := some c } active
          = [SubsystemCmd.setNetworkActiveCmd active] :=
  ⟨rfl, rfl, rfl, fun _ _ _ => rfl⟩

/-- C9: the façades are stateless wrappers: every query method returns the
underlying subsystem state unchanged (no caching, no side effects), so a
repeated call against the same subsystem state returns the same value; the
wallet façade likewise only holds its non-owning wallet reference and its
subscription method leaves the façade unchanged. -/
theorem facade_queries_stateless :
    ∀ (α δ : Type) (guess : Option CBlockIndex → α) (s : NodeState)
      (flags : NumConnections) (height block_time : Int)
      (impl : WalletImpl) (fn : String × Int × Bool → δ)
      (sig : Signal (String × Int × Bool) δ),
      (NodeImpl.getNodeCount s flags).2 = s
      ∧ (NodeImpl.getTotalBytesRecv s).2 = s
      ∧ (NodeImpl.getTotalBytesSent s).2 = s
      ∧ (NodeImpl.getNetworkActive s).2 = s
      ∧ (NodeImpl.getMempoolSize s).2 = s
      ∧ (NodeImpl.getMempoolDynamicUsage s).2 = s
      ∧ (NodeImpl.getHeaderTip s height block_time).2 = s
      ∧ (NodeImpl.getNumBlocks s).2 = s
      ∧ (NodeImpl.getLastBlockTime s).2 = s
      ∧ (NodeImpl.getVerificationProgress guess s).2 = s
      ∧ (NodeImpl.isInitialBlockDownload s).2 = s
      ∧ (NodeImpl.getNumBlocks ((NodeImpl.getNumBlocks s).2)).1
          = (NodeImpl.getNumBlocks s).1
      ∧ (NodeImpl.getHeaderTip
            ((NodeImpl.getHeaderTip s height block_time).2) height block_time).1
          = (NodeImpl.getHeaderTip s height block_time).1
      ∧ (WalletImpl.handleShowProgress impl fn sig).1 = impl := by
  intro α δ guess s flags height block_time impl fn sig
  have hconn : ∀ r : NodeState,
      (NodeImpl.getNodeCount r flags).2 = r
      ∧ (NodeImpl.getTotalBytesRecv r).2 = r
      ∧ (NodeImpl.getTotalBytesSent r).2 = r
      ∧ (NodeImpl.getNetworkActive r).2 = r := by
    intro r
    rcases hg : r.g_connman with _ | c <;>
      simp [NodeImpl.getNodeCount, NodeImpl.getTotalBytesRecv,
        NodeImpl.getTotalBytesSent, NodeImpl.getNetworkActive, hg]
  have hheader : ∀ r : NodeState,
      (NodeImpl.getHeaderTip r height block_time).2 = r := by
    intro r
    rcases hb : r.pindexBestHeader with _ | b <;>
      simp [NodeImpl.getHeaderTip, hb]
  have hlast : ∀ r : NodeState, (NodeImpl.getLastBlockTime r).2 = r := by
    intro r
    rcases ht : CChain.Tip r.chainActive with _ | b <;>
      simp [NodeImpl.getLastBlockTime, ht]
  refine ⟨(hconn s).1, (hconn s).2.1, (hconn s).2.2.1, (hconn s).2.2.2,
    rfl, rfl, hheader s, rfl, hlast s, rfl, rfl, rfl, ?_, rfl⟩
  rw [hheader s]

/-- C10: `getLastBlockTime` always returns a time: the active tip's block
time when the chain has a tip, and the genesis block's time of the current
network parameters when the chain is empty. -/
theorem getLastBlockTime_total :
    ∀ s : NodeState,
      (CChain.Tip s.chainActive = none →
        (NodeImpl.getLastBlockTime s).1
          = s.params.genesisBlock.GetBlockTime)
      ∧ ∀ b, CChain.Tip s.chainActive = some b →
          (NodeImpl.getLastBlockTime s).1 = b.GetBlockTime := by
  intro s
  constructor
  · intro hnone
    simp [NodeImpl.getLastBlockTime, hnone]
  · intro b hsome
    simp [NodeImpl.getLastBlockTime, hsome]

/-- Witness for C10: with an empty chain the genesis time 1231006505 is
returned; with a tip at time 20 that time is returned. -/
theorem getLastBlockTime_total_witness :
    (NodeImpl.getLastBlockTime emptyNodeState).1 = Int.ofNat 1231006505
    ∧ (NodeImpl.getLastBlockTime tipNodeState).1 = Int.ofNat 20 :=
  ⟨(getLastBlockTime_total emptyNodeState).1 rfl,
   (getLastBlockTime_total tipNodeState).2 { nHeight := 2, nTime := 20 } rfl⟩

end Interfaces
